import Mathlib

/-!
Verification of the cms-detector package (src/cms_detector/__init__.py)
against its natural-language specification.

The Python module is embedded shallowly:

* Python `str` is Lean `String`; character-level work is done on `String.data`
  (`List Char`).  Python's `\w` class is modelled over ASCII word characters,
  which covers every string the module's own logic manufactures or tests.
* The network (`requests.Session.get`) is an oracle
  `transport : String → Option FetchResult`; `none` models "an exception was
  raised during transport", `some r` models a delivered response.
* The HTML parse (`BeautifulSoup(...).find("meta", attrs={"name": "generator"})`
  followed by `tag.get("content")`) is an oracle
  `findMetaGenerator : String → Option (Option String)`; the outer `Option` is
  "was a generator meta tag found", the inner one is the tag's `content`
  attribute (`none` models Python `None`).
* Python's implicit fall-through `return None` is `Option`; a function that may
  return `None` or a report returns `Option WPReport`.
* Python `set` values are modelled as deduplicated lists (`List.dedup`); every
  claim about them is stated via membership or emptiness, which is insensitive
  to iteration order.
-/

namespace CmsDetector

/-- A fetched (or synthesised) HTTP response: the fields of `requests.Response`
the module reads (`status_code`, `text`, `url`).  `BeautifulSoup` is fed
`response.content`, the raw bytes of the same document; both are modelled by
the single `text` field. -/
structure FetchResult where
  status_code : Int
  text : String
  url : String
deriving DecidableEq, Repr

/-- The dict returned by `wp_details` on the `status_code < 400` path. -/
structure WPReport where
  is_wp_installed : Bool
  wp_version : Option String
  themes : List String
  plugins : List String
deriving DecidableEq, Repr

/-- Python `s.startswith(pre)`. -/
def pyStartsWith (s pre : String) : Bool :=
  pre.data.isPrefixOf s.data

/-- Python `s.endswith(suf)`. -/
def pyEndsWith (s suf : String) : Bool :=
  suf.data.isSuffixOf s.data

/-- Python `mock_requests_object(url)`: the synthetic response fabricated on a
transport exception — empty body, sentinel status 9999, the requested url
echoed back. -/
def mock_requests_object (url : String) : FetchResult :=
  { status_code := 9999, text := "", url := url }

/-- Python `get_remote_content(url, max_retires=2)`.  The `try` block is the
transport oracle: `none` means `s.get` raised, in which case the bare
`except:` returns `mock_requests_object(url)`.  `max_retires` only configures
the `HTTPAdapter` and does not affect the returned value. -/
def get_remote_content (transport : String → Option FetchResult)
    (url : String) (max_retires : Nat) : FetchResult :=
  match transport url with
  | some r => r
  | none => mock_requests_object url

/-- Python `get_corrected_url(url, fix_slash="/")`: prepend `http://` when no
recognised scheme is present, then append `fix_slash` when the url does not
already end with it. -/
def get_corrected_url (url : String) (fix_slash : String) : String :=
  let url1 :=
    if !(pyStartsWith url "http://") && !(pyStartsWith url "https://") then
      "http://" ++ url
    else url
  if !(pyEndsWith url1 fix_slash) then url1 ++ fix_slash else url1

/-! ### The link regex

`link_regex = ((https?):((/)|(\\))+([\w\d:#@%/;$()~_?+-=\.&](#!)?)*)` with
`re.DOTALL`, used through `re.findall`; `link[0]` is group 1, i.e. the whole
match.  The pattern has no construct that forces backtracking (every
quantifier is greedy and nothing follows the final `*`), so a greedy
left-to-right scanner reproduces `re.findall` exactly. -/

/-- A character of the regex's bracket class
`[\w\d:#@%/;$()~_?+-=\.&]`:  ASCII word characters (`\w`, `\d`, `_`), the
listed punctuation, the range `+`–`=` (which spans `+,-./0-9:;<=`), backslash,
dot and ampersand. -/
def isUrlChar (c : Char) : Bool :=
  c.isAlphanum || c == '_' || c == ':' || c == '#' || c == '@' || c == '%' ||
  c == '/' || c == ';' || c == '$' || c == '(' || c == ')' || c == '~' ||
  c == '?' || ('+' ≤ c && c ≤ '=') || c == '\\' || c == '.' || c == '&'

/-- Regex alternative `(/)|(\\)`: one path separator. -/
def isSlash (c : Char) : Bool :=
  c == '/' || c == '\\'

/-- Greedy match of the trailing `([class](#!)?)*` part: returns the consumed
characters and the remainder of the text. -/
def urlTail : List Char → List Char × List Char
  | [] => ([], [])
  | [c] => if isUrlChar c then ([c], []) else ([], [c])
  | c :: c1 :: c2 :: rest =>
    if isUrlChar c then
      if c1 == '#' && c2 == '!' then
        let p := urlTail rest
        (c :: c1 :: c2 :: p.1, p.2)
      else
        let p := urlTail (c1 :: c2 :: rest)
        (c :: p.1, p.2)
    else ([], c :: c1 :: c2 :: rest)
  | [c, c1] =>
    if isUrlChar c then
      let p := urlTail [c1]
      (c :: p.1, p.2)
    else ([], [c, c1])

/-- Match the whole pattern at the current position: `http` or `https`, a
colon, one or more slashes/backslashes (`((/)|(\\))+`, greedy), then
`urlTail`.  Returns the matched characters and the remainder, or `none` when
the pattern does not match here. -/
def matchUrlAt (l : List Char) : Option (List Char × List Char) :=
  match l with
  | c1 :: c2 :: c3 :: c4 :: rest =>
    if c1 == 'h' && c2 == 't' && c3 == 't' && c4 == 'p' then
      let afterScheme : Option (List Char × List Char) :=
        match rest with
        | c5 :: c6 :: r2 =>
          if c5 == 's' && c6 == ':' then some ([c1, c2, c3, c4, c5, c6], r2)
          else if c5 == ':' then some ([c1, c2, c3, c4, c5], c6 :: r2)
          else none
        | _ => none
      match afterScheme with
      | some (sch, r2) =>
        let slashes := r2.takeWhile isSlash
        if slashes.isEmpty then none
        else
          let r3 := r2.drop slashes.length
          let p := urlTail r3
          some (sch ++ slashes ++ p.1, p.2)
      | none => none
    else none
  | _ => none

/-- Python `re.findall(link_regex, text)` restricted to group 1 (the full match):
scan left to right; at a match, emit it and resume after it.  Structural fuel
(`text.length`) keeps the recursion structural; every step consumes at least
one character, so the fuel never runs out. -/
def findUrlsAux : Nat → List Char → List (List Char)
  | 0, _ => []
  | _ + 1, [] => []
  | fuel + 1, c :: cs =>
    match matchUrlAt (c :: cs) with
    | some (m, rest) => m :: findUrlsAux fuel rest
    | none => findUrlsAux fuel cs

def findUrls (l : List Char) : List (List Char) :=
  findUrlsAux l.length l

/-- Python `set([link[0] for link in re.findall(link_regex, response.text)])`. -/
def all_links (body : String) : List String :=
  ((findUrls body.data).map fun l => String.mk l).dedup

/-- Python `pat in s` (substring containment), in the form the entity
extraction also uses: the suffix of `s` after the first occurrence of `pat`,
or `none` when `pat` does not occur. -/
def dropAfterFirst (pat : List Char) : List Char → Option (List Char)
  | [] => if pat.isEmpty then some [] else none
  | c :: cs =>
    if pat.isPrefixOf (c :: cs) then some ((c :: cs).drop pat.length)
    else dropAfterFirst pat cs

/-- Python `pat in s`. -/
def strIn (pat s : String) : Bool :=
  (dropAfterFirst pat.data s.data).isSome

/-- Python `re.search(marker + "(.*)/", link)` followed by
`match.group(1).split("/")[0]`, as used for `/themes/` and `/plugins/`:
the search succeeds exactly when some `/` follows an occurrence of the marker
(equivalently: when the text after the first occurrence contains a `/`, since
the marker itself starts with `/`); the extracted name is then the first
path segment after the first occurrence of the marker. -/
def extractEntity (marker : List Char) (link : List Char) : Option (List Char) :=
  match dropAfterFirst marker link with
  | none => none
  | some rest =>
    if rest.any (fun c => c == '/') then
      some (rest.takeWhile (fun c => !(c == '/')))
    else none

/-- The function `extractEntity` lifted to `String`s. -/
def extractEntityS (marker link : String) : Option String :=
  (extractEntity marker.data link.data).map fun l => String.mk l

/-- One entity pass of `wp_details` (`themes` or `plugins`): filter the link
set by marker containment, run the search on each survivor, keep the
successful extractions, deduplicate (`list(set(...))`).  When the filtered
list is empty the Python code skips the `if`-rebinding and the result is the
same empty list. -/
def entity_names (marker : String) (links : List String) : List String :=
  (((links.filter fun link => strIn marker link).filterMap
      fun link => extractEntityS marker link)).dedup

/-- Python `any([wp_content, wp_includes, wp_json])`: at least one of the three
marker buckets is non-empty. -/
def wp_signal (links : List String) : Bool :=
  !(links.filter fun meta => strIn "wp-content" meta).isEmpty ||
  !(links.filter fun meta => strIn "wp-includes" meta).isEmpty ||
  !(links.filter fun meta => strIn "wp-json" meta).isEmpty

/-- The body of `wp_details` after the fetch: the `status_code < 400` branch
builds the report, and the function otherwise falls through, returning
`None` (`none`). -/
def wp_details_core (findMetaGenerator : String → Option (Option String))
    (response : FetchResult) : Option WPReport :=
  if response.status_code < 400 then
    let links := all_links response.text
    let wp_found := wp_signal links
    let wp_version : Option String :=
      if wp_found then
        match findMetaGenerator response.text with
        | some contentAttr => contentAttr
        | none => some ""
      else some ""
    some
      { is_wp_installed := wp_found
        wp_version := wp_version
        themes := entity_names "/themes/" links
        plugins := entity_names "/plugins/" links }
  else none

/-- Python `wp_details(target_url)`: normalise, fetch, detect. -/
def wp_details (transport : String → Option FetchResult)
    (findMetaGenerator : String → Option (Option String))
    (target_url : String) : Option WPReport :=
  let corrected := get_corrected_url target_url "/"
  let response := get_remote_content transport corrected 2
  wp_details_core findMetaGenerator response

/-! ### Basic string lemmas -/

theorem data_append (s t : String) : (s ++ t).data = s.data ++ t.data := rfl

theorem isPrefixOf_append_self (p m : List Char) :
    p.isPrefixOf (p ++ m) = true := by
  induction p with
  | nil => simp [List.isPrefixOf]
  | cons a as ih => simp [List.isPrefixOf, ih]

theorem isPrefixOf_append_right (p l m : List Char)
    (h : p.isPrefixOf l = true) : p.isPrefixOf (l ++ m) = true := by
  induction p generalizing l with
  | nil => simp [List.isPrefixOf]
  | cons a as ih =>
    cases l with
    | nil => simp [List.isPrefixOf] at h
    | cons b bs =>
      simp only [List.isPrefixOf, Bool.and_eq_true] at h
      simp [List.isPrefixOf, h.1, ih bs h.2]

theorem isSuffixOf_append_self (s l : List Char) :
    s.isSuffixOf (l ++ s) = true := by
  simp only [List.isSuffixOf, List.reverse_append]
  exact isPrefixOf_append_self s.reverse l.reverse

theorem pyStartsWith_append_self (p t : String) :
    pyStartsWith (p ++ t) p = true := by
  simp only [pyStartsWith, data_append]
  exact isPrefixOf_append_self p.data t.data

theorem pyStartsWith_append_right (s p t : String)
    (h : pyStartsWith s p = true) : pyStartsWith (s ++ t) p = true := by
  simp only [pyStartsWith, data_append] at *
  exact isPrefixOf_append_right p.data s.data t.data h

theorem pyEndsWith_append_self (s f : String) :
    pyEndsWith (s ++ f) f = true := by
  simp only [pyEndsWith, data_append]
  exact isSuffixOf_append_self f.data s.data

/-- Unfolding equation for `get_corrected_url` (the `let` written out). -/
theorem get_corrected_url_eq (u f : String) :
    get_corrected_url u f =
      if !(pyEndsWith (if !(pyStartsWith u "http://") && !(pyStartsWith u "https://")
            then "http://" ++ u else u) f)
      then (if !(pyStartsWith u "http://") && !(pyStartsWith u "https://")
            then "http://" ++ u else u) ++ f
      else (if !(pyStartsWith u "http://") && !(pyStartsWith u "https://")
            then "http://" ++ u else u) := rfl

/-- Appending `f` when the string does not already end with it always yields
a string ending with `f`. -/
theorem fix_end_endsWith (X f : String) :
    pyEndsWith (if !(pyEndsWith X f) then X ++ f else X) f = true := by
  cases h : pyEndsWith X f with
  | false => simpa using pyEndsWith_append_self X f
  | true => simpa using h

/-- The end-fixing step preserves any prefix of the string. -/
theorem fix_end_preserves_start (X f p : String) (h : pyStartsWith X p = true) :
    pyStartsWith (if !(pyEndsWith X f) then X ++ f else X) p = true := by
  cases hE : pyEndsWith X f with
  | false => simpa using pyStartsWith_append_right X p f h
  | true => simpa using h

theorem get_corrected_url_endsWith (u f : String) :
    pyEndsWith (get_corrected_url u f) f = true := by
  rw [get_corrected_url_eq]
  exact fix_end_endsWith _ f

theorem get_corrected_url_scheme (u f : String) :
    pyStartsWith (get_corrected_url u f) "http://" = true ∨
    pyStartsWith (get_corrected_url u f) "https://" = true := by
  rw [get_corrected_url_eq]
  have h1 : pyStartsWith (if !(pyStartsWith u "http://") && !(pyStartsWith u "https://")
        then "http://" ++ u else u) "http://" = true ∨
      pyStartsWith (if !(pyStartsWith u "http://") && !(pyStartsWith u "https://")
        then "http://" ++ u else u) "https://" = true := by
    cases hA : pyStartsWith u "http://" with
    | true => simp [hA]
    | false =>
      cases hB : pyStartsWith u "https://" with
      | true => simp [hA, hB]
      | false => simp [hA, hB, pyStartsWith_append_self]
  rcases h1 with h | h
  · exact Or.inl (fix_end_preserves_start _ f _ h)
  · exact Or.inr (fix_end_preserves_start _ f _ h)

/-! ### Claim theorems: normalizer, fetcher, gate, determinism -/

/-- Claim C7: `get_corrected_url` is a total function on strings such that
an input with neither an `http://` nor an `https://` prefix yields an output
starting with `http://`, and every output ends with `fix_slash`. -/
theorem claim_C7_normalizer (url fix_slash : String) :
    (pyStartsWith url "http://" = false → pyStartsWith url "https://" = false →
      pyStartsWith (get_corrected_url url fix_slash) "http://" = true) ∧
    pyEndsWith (get_corrected_url url fix_slash) fix_slash = true := by
  refine ⟨fun hA hB => ?_, get_corrected_url_endsWith url fix_slash⟩
  rw [get_corrected_url_eq]
  simp only [hA, hB, Bool.not_false, Bool.and_self, if_pos]
  exact fix_end_preserves_start _ fix_slash _ (pyStartsWith_append_self "http://" url)

/-- Witness for C7 at the concrete input `"example.com"`. -/
theorem claim_C7_normalizer_witness :
    pyStartsWith (get_corrected_url "example.com" "/") "http://" = true ∧
    pyEndsWith (get_corrected_url "example.com" "/") "/" = true :=
  ⟨(claim_C7_normalizer "example.com" "/").1 (by decide) (by decide),
   (claim_C7_normalizer "example.com" "/").2⟩

/-- Claim C8: with the default separator `/`, `get_corrected_url` is
idempotent — its output is a fixed point. -/
theorem claim_C8_normalizer_idempotent (u : String) :
    get_corrected_url (get_corrected_url u "/") "/" = get_corrected_url u "/" := by
  have hsch := get_corrected_url_scheme u "/"
  have hend := get_corrected_url_endsWith u "/"
  rw [get_corrected_url_eq (get_corrected_url u "/") "/"]
  have hcond : (!(pyStartsWith (get_corrected_url u "/") "http://") &&
      !(pyStartsWith (get_corrected_url u "/") "https://")) = false := by
    rcases hsch with h | h <;> simp [h]
  simp [hcond, hend]

/-- Claim C3: when the transport raises (`transport url = none`), the fetcher
returns the synthetic mock: empty body, sentinel status 9999, the requested
url echoed back unchanged — it never propagates the exception. -/
theorem claim_C3_fetcher_never_raises
    (transport : String → Option FetchResult) (url : String) (max_retires : Nat)
    (h : transport url = none) :
    (get_remote_content transport url max_retires).text = "" ∧
    (get_remote_content transport url max_retires).status_code = 9999 ∧
    (get_remote_content transport url max_retires).url = url := by
  unfold get_remote_content
  rw [h]
  exact ⟨rfl, rfl, rfl⟩

/-- Witness for C3: a transport that always raises. -/
theorem claim_C3_fetcher_never_raises_witness :
    (get_remote_content (fun _ => none) "http://unreachable.example/" 2).text = "" ∧
    (get_remote_content (fun _ => none) "http://unreachable.example/" 2).status_code = 9999 ∧
    (get_remote_content (fun _ => none) "http://unreachable.example/" 2).url =
      "http://unreachable.example/" :=
  claim_C3_fetcher_never_raises (fun _ => none) "http://unreachable.example/" 2 rfl

/-- Claim C9: the detector is deterministic — two responses that agree on
status code, body and url produce the same report. -/
theorem claim_C9_deterministic (m : String → Option (Option String))
    (r1 r2 : FetchResult)
    (h1 : r1.status_code = r2.status_code) (h2 : r1.text = r2.text)
    (h3 : r1.url = r2.url) :
    wp_details_core m r1 = wp_details_core m r2 := by
  cases r1; cases r2
  simp only at h1 h2 h3
  rw [h1, h2, h3]

/-- Witness for C9 at a concrete pair of equal responses. -/
theorem claim_C9_deterministic_witness :
    wp_details_core (fun _ => none) ⟨200, "x", "u"⟩ =
      wp_details_core (fun _ => none) ⟨100 + 100, "x", "u"⟩ :=
  claim_C9_deterministic (fun _ => none) ⟨200, "x", "u"⟩ ⟨100 + 100, "x", "u"⟩
    (by decide) rfl rfl

/-! ### Unfolding lemmas for the detector -/

/-- On the `status_code < 400` path the detector returns exactly this
report. -/
theorem core_some_of_lt (m : String → Option (Option String)) (r : FetchResult)
    (h : r.status_code < 400) :
    wp_details_core m r = some
      { is_wp_installed := wp_signal (all_links r.text)
        wp_version :=
          if wp_signal (all_links r.text) then
            match m r.text with
            | some contentAttr => contentAttr
            | none => some ""
          else some ""
        themes := entity_names "/themes/" (all_links r.text)
        plugins := entity_names "/plugins/" (all_links r.text) } := by
  unfold wp_details_core
  rw [if_pos h]

/-- On the `status_code ≥ 400` path the detector falls through to `none`. -/
theorem core_none_of_ge (m : String → Option (Option String)) (r : FetchResult)
    (h : ¬ r.status_code < 400) : wp_details_core m r = none := by
  unfold wp_details_core
  rw [if_neg h]

/-- A marker bucket `[meta for meta in all_link if pat in meta]` is non-empty
exactly when some link contains the marker. -/
theorem filter_nonempty_iff (p : String → Bool) (l : List String) :
    (!(l.filter p).isEmpty) = true ↔ ∃ x ∈ l, p x = true := by
  simp [List.isEmpty_iff, List.filter_eq_nil_iff]

/-- Python `any([wp_content, wp_includes, wp_json])` holds exactly when some
extracted link contains one of the three markers. -/
theorem wp_signal_iff (links : List String) :
    wp_signal links = true ↔
      ∃ link ∈ links,
        (strIn "wp-content" link = true ∨ strIn "wp-includes" link = true ∨
         strIn "wp-json" link = true) := by
  simp only [wp_signal, Bool.or_eq_true, filter_nonempty_iff]
  constructor
  · intro hs
    rcases hs with hs | hs
    · rcases hs with ⟨x, hx, hp⟩ | ⟨x, hx, hp⟩
      · exact ⟨x, hx, Or.inl hp⟩
      · exact ⟨x, hx, Or.inr (Or.inl hp)⟩
    · obtain ⟨x, hx, hp⟩ := hs
      exact ⟨x, hx, Or.inr (Or.inr hp)⟩
  · rintro ⟨x, hx, hp | hp | hp⟩
    · exact Or.inl (Or.inl ⟨x, hx, hp⟩)
    · exact Or.inl (Or.inr ⟨x, hx, hp⟩)
    · exact Or.inr ⟨x, hx, hp⟩

/-- A successful entity extraction implies marker containment (so the
comprehension filter keeps the link). -/
theorem strIn_of_extract (marker link name : String)
    (he : extractEntityS marker link = some name) : strIn marker link = true := by
  unfold extractEntityS extractEntity at he
  unfold strIn
  cases hd : dropAfterFirst marker.data link.data with
  | none => rw [hd] at he; simp at he
  | some rest => simp [hd]

/-- Every successful extraction from a link of the set lands in the
deduplicated entity list. -/
theorem mem_entity_names (marker : String) (links : List String)
    (link name : String) (hl : link ∈ links)
    (he : extractEntityS marker link = some name) :
    name ∈ entity_names marker links := by
  unfold entity_names
  rw [List.mem_dedup]
  refine List.mem_filterMap.mpr ⟨link, ?_, he⟩
  rw [List.mem_filter]
  exact ⟨hl, strIn_of_extract marker link name he⟩

/-- Counterexample to claim C1 as stated: on a fetched 404 response,
`wp_details` returns `none` (Python `None`) — an absent result — not an
inconclusive/negative report. -/
theorem claim_C1_counterexample :
    wp_details (fun _ => some ⟨404, "", "http://x/"⟩) (fun _ => none) "x" = none := by
  decide

/-- Claim C1 (amended): for every fetched response with `status_code ≥ 400`
the detection operation does not raise; it returns no report at all (Python
`None`, i.e. `none`), an absent result, rather than an inconclusive report. -/
theorem claim_C1_gate_returns_none (m : String → Option (Option String))
    (r : FetchResult) (h : 400 ≤ r.status_code) :
    wp_details_core m r = none := by
  unfold wp_details_core
  rw [if_neg (by omega)]

/-- Witness for the amended C1 at a concrete 404 response. -/
theorem claim_C1_gate_returns_none_witness :
    wp_details_core (fun _ => none) ⟨404, "irrelevant", "u"⟩ = none :=
  claim_C1_gate_returns_none (fun _ => none) ⟨404, "irrelevant", "u"⟩ (by decide)

/-- Claim C2: for a response with `status_code < 400`, `is_wp_installed` is
true iff at least one link extracted by the url regex contains one of the
marker substrings `wp-content`, `wp-includes` or `wp-json`. -/
theorem claim_C2_detection_iff (m : String → Option (Option String))
    (r : FetchResult) (h : r.status_code < 400) :
    ∃ rep, wp_details_core m r = some rep ∧
      (rep.is_wp_installed = true ↔
        ∃ link ∈ all_links r.text,
          (strIn "wp-content" link = true ∨ strIn "wp-includes" link = true ∨
           strIn "wp-json" link = true)) := by
  refine ⟨_, core_some_of_lt m r h, ?_⟩
  exact wp_signal_iff (all_links r.text)

/-- Witness for C2, scenario A: a body with a `/wp-content/` link is
detected. -/
theorem claim_C2_detection_iff_witness :
    ∃ rep, wp_details_core (fun _ => none)
        ⟨200, "see http://e.co/wp-content/a now", "u"⟩ = some rep ∧
      rep.is_wp_installed = true := by
  obtain ⟨rep, hrep, hiff⟩ := claim_C2_detection_iff (fun _ => none)
    ⟨200, "see http://e.co/wp-content/a now", "u"⟩ (by decide)
  exact ⟨rep, hrep,
    hiff.mpr ⟨"http://e.co/wp-content/a", by decide, Or.inl (by decide)⟩⟩

/-- Claim C4: on a processed response, entity enumeration is independent of
the detection signal — every extracted link from which the `/plugins/`
(resp. `/themes/`) search extracts a name contributes that name to the
plugins (resp. themes) collection, whether or not any marker is present. -/
theorem claim_C4_enumeration (m : String → Option (Option String))
    (r : FetchResult) (h : r.status_code < 400) :
    ∃ rep, wp_details_core m r = some rep ∧
      (∀ link ∈ all_links r.text, ∀ name,
        extractEntityS "/plugins/" link = some name → name ∈ rep.plugins) ∧
      (∀ link ∈ all_links r.text, ∀ name,
        extractEntityS "/themes/" link = some name → name ∈ rep.themes) := by
  refine ⟨_, core_some_of_lt m r h, ?_, ?_⟩
  · intro link hlink name hname
    exact mem_entity_names "/plugins/" (all_links r.text) link name hlink hname
  · intro link hlink name hname
    exact mem_entity_names "/themes/" (all_links r.text) link name hlink hname

/-- Witness for C4, scenario D: the akismet readme link puts `"akismet"`
into the plugins set. -/
theorem claim_C4_enumeration_witness :
    ∃ rep, wp_details_core (fun _ => none)
        ⟨200, "x http://example.com/wp-content/plugins/akismet/readme.txt y", "u"⟩ =
        some rep ∧ "akismet" ∈ rep.plugins := by
  obtain ⟨rep, hrep, hplug, _⟩ := claim_C4_enumeration (fun _ => none)
    ⟨200, "x http://example.com/wp-content/plugins/akismet/readme.txt y", "u"⟩
    (by decide)
  exact ⟨rep, hrep,
    hplug "http://example.com/wp-content/plugins/akismet/readme.txt" (by decide)
      "akismet" (by decide)⟩

/-- Claim C5: every returned report with `is_wp_installed = false` carries
the empty version string, while themes and plugins can nevertheless be
non-empty. -/
theorem claim_C5_invariant :
    (∀ (m : String → Option (Option String)) (r : FetchResult) (rep : WPReport),
        wp_details_core m r = some rep → rep.is_wp_installed = false →
        rep.wp_version = some "") ∧
    (∃ (m : String → Option (Option String)) (r : FetchResult) (rep : WPReport),
        wp_details_core m r = some rep ∧ rep.is_wp_installed = false ∧
        rep.themes ≠ [] ∧ rep.plugins ≠ []) := by
  constructor
  · intro m r rep hrep hfalse
    by_cases h : r.status_code < 400
    · rw [core_some_of_lt m r h] at hrep
      obtain rfl := Option.some.inj hrep
      dsimp only at hfalse ⊢
      rw [hfalse]
      simp
    · rw [core_none_of_ge m r h] at hrep
      exact absurd hrep (by simp)
  · refine ⟨fun _ => none,
      ⟨200, "a http://a.co/themes/bar/x and http://a.co/plugins/foo/y b", "u"⟩,
      ⟨false, some "", ["bar"], ["foo"]⟩, by decide, by decide, by decide, by decide⟩

/-- Witness for C5, scenario B: a body with no markers yields
`is_wp_installed = false` and `wp_version = ""`. -/
theorem claim_C5_invariant_witness :
    wp_details_core (fun _ => none) ⟨200, "plain text", "u"⟩ =
      some (⟨false, some "", [], []⟩ : WPReport) ∧
    (⟨false, some "", [], []⟩ : WPReport).wp_version = some "" :=
  ⟨by decide,
   claim_C5_invariant.1 (fun _ => none) ⟨200, "plain text", "u"⟩
     ⟨false, some "", [], []⟩ (by decide) rfl⟩

/-- Claim C6: version extraction is gated behind the detection signal — when
the signal is present the version is whatever the generator-meta-tag lookup
yields on the body (its `content` attribute, or `""` when no tag is found),
and when the signal is absent the version is `""` untouched, for every
possible lookup result. -/
theorem claim_C6_version_gated (m : String → Option (Option String))
    (r : FetchResult) (h : r.status_code < 400) :
    ∃ rep, wp_details_core m r = some rep ∧
      (rep.is_wp_installed = true →
        rep.wp_version = match m r.text with
          | some contentAttr => contentAttr
          | none => some "") ∧
      (rep.is_wp_installed = false → rep.wp_version = some "") := by
  refine ⟨_, core_some_of_lt m r h, ?_, ?_⟩
  · intro hsig
    dsimp only at hsig ⊢
    rw [hsig]
    simp
  · intro hsig
    dsimp only at hsig ⊢
    rw [hsig]
    simp

/-- Witness for C6, scenario C: a `wp-includes` link plus a generator tag
whose content is `WordPress 6.2` yields that version string. -/
theorem claim_C6_version_gated_witness :
    ∃ rep, wp_details_core (fun _ => some (some "WordPress 6.2"))
        ⟨200, "a http://e.co/wp-includes/x b", "u"⟩ = some rep ∧
      rep.wp_version = some "WordPress 6.2" := by
  obtain ⟨rep, hrep, hpos, _⟩ := claim_C6_version_gated
    (fun _ => some (some "WordPress 6.2"))
    ⟨200, "a http://e.co/wp-includes/x b", "u"⟩ (by decide)
  have hcomp : wp_details_core (fun _ => some (some "WordPress 6.2"))
      ⟨200, "a http://e.co/wp-includes/x b", "u"⟩ =
      some (⟨true, some "WordPress 6.2", [], []⟩ : WPReport) := by decide
  rw [hcomp] at hrep
  obtain rfl := Option.some.inj hrep
  exact ⟨_, hcomp, hpos rfl⟩

/-! ### Shape of extracted entity names (for C10) -/

/-- The first path segment taken by `split("/")[0]` contains no slash. -/
theorem not_mem_takeWhile_ne (l : List Char) :
    '/' ∉ l.takeWhile (fun c => !(c == '/')) := by
  induction l with
  | nil => simp
  | cons c cs ih =>
    by_cases hc : c = '/'
    · subst hc
      simp [List.takeWhile_cons]
    · have hcb : (c == '/') = false := by simp [hc]
      simp [List.takeWhile_cons, hcb, ih, Ne.symm hc]

/-- A list containing a slash splits as its slash-free head, the first
slash, and a tail. -/
theorem decomp_of_any_slash (l : List Char)
    (h : l.any (fun c => c == '/') = true) :
    ∃ t, l = l.takeWhile (fun c => !(c == '/')) ++ '/' :: t := by
  induction l with
  | nil => simp at h
  | cons c cs ih =>
    by_cases hc : c = '/'
    · subst hc
      exact ⟨cs, by simp [List.takeWhile_cons]⟩
    · have hcb : (c == '/') = false := by simp [hc]
      have h' : cs.any (fun c => c == '/') = true := by
        simp only [List.any_cons, hcb, Bool.false_or] at h
        exact h
      obtain ⟨t, ht⟩ := ih h'
      refine ⟨t, ?_⟩
      simp only [List.takeWhile_cons, hcb, Bool.not_false, if_true]
      exact congrArg (List.cons c) ht

/-- Every name in an entity list is slash-free and is the first path segment
after the first marker occurrence in some link, followed by a further `/`. -/
theorem entity_names_shape (marker : String) (links : List String)
    (name : String) (hm : name ∈ entity_names marker links) :
    ('/' ∉ name.data) ∧
      ∃ link ∈ links, ∃ t : List Char,
        dropAfterFirst marker.data link.data =
          some (name.data ++ '/' :: t) := by
  unfold entity_names at hm
  rw [List.mem_dedup] at hm
  obtain ⟨link, hlf, he⟩ := List.mem_filterMap.mp hm
  rw [List.mem_filter] at hlf
  unfold extractEntityS at he
  cases hee : extractEntity marker.data link.data with
  | none => rw [hee] at he; simp at he
  | some nl =>
    rw [hee] at he
    simp only [Option.map_some'] at he
    have hname : String.mk nl = name := Option.some.inj he
    unfold extractEntity at hee
    cases hd : dropAfterFirst marker.data link.data with
    | none => rw [hd] at hee; exact absurd hee (by simp)
    | some rest =>
      rw [hd] at hee
      dsimp only at hee
      by_cases hany : rest.any (fun c => c == '/') = true
      · rw [if_pos hany] at hee
        have hnl : nl = rest.takeWhile (fun c => !(c == '/')) :=
          (Option.some.inj hee).symm
        obtain ⟨t, ht⟩ := decomp_of_any_slash rest hany
        subst hname
        constructor
        · show '/' ∉ nl
          rw [hnl]
          exact not_mem_takeWhile_ne rest
        · refine ⟨link, hlf.1, t, ?_⟩
          rw [hd]
          congr 1
          show rest = nl ++ '/' :: t
          rw [hnl]
          exact ht
      · rw [if_neg hany] at hee
        exact absurd hee (by simp)

/-- Claim C10: every name placed in the themes or plugins collection is
slash-free, and is exactly the first path segment after the marker in some
extracted link, where it is followed by a further `/`. -/
theorem claim_C10_entity_names (m : String → Option (Option String))
    (r : FetchResult) (h : r.status_code < 400) :
    ∃ rep, wp_details_core m r = some rep ∧
      (∀ name ∈ rep.plugins, ('/' ∉ name.data) ∧
        ∃ link ∈ all_links r.text, ∃ t : List Char,
          dropAfterFirst "/plugins/".data link.data =
            some (name.data ++ '/' :: t)) ∧
      (∀ name ∈ rep.themes, ('/' ∉ name.data) ∧
        ∃ link ∈ all_links r.text, ∃ t : List Char,
          dropAfterFirst "/themes/".data link.data =
            some (name.data ++ '/' :: t)) := by
  refine ⟨_, core_some_of_lt m r h, ?_, ?_⟩
  · intro name hn
    exact entity_names_shape "/plugins/" (all_links r.text) name hn
  · intro name hn
    exact entity_names_shape "/themes/" (all_links r.text) name hn

/-- Witness for C10 on the akismet link: the extracted name is slash-free
and followed by a slash in the link. -/
theorem claim_C10_entity_names_witness :
    '/' ∉ "akismet".data ∧
      ∃ link ∈ all_links
          "x http://example.com/wp-content/plugins/akismet/readme.txt y",
        ∃ t : List Char,
          dropAfterFirst "/plugins/".data link.data =
            some ("akismet".data ++ '/' :: t) := by
  obtain ⟨rep, hrep, hplug, _⟩ := claim_C10_entity_names (fun _ => none)
    ⟨200, "x http://example.com/wp-content/plugins/akismet/readme.txt y", "u"⟩
    (by decide)
  have hcomp : wp_details_core (fun _ => none)
      ⟨200, "x http://example.com/wp-content/plugins/akismet/readme.txt y", "u"⟩ =
      some (⟨true, some "", [], ["akismet"]⟩ : WPReport) := by decide
  rw [hcomp] at hrep
  obtain rfl := Option.some.inj hrep
  exact hplug "akismet" (by simp)

end CmsDetector
